import Mathlib

/-!
# The Go / SpiderMonkey bridge `monkey`

A shallow embedding of the bridge's host side.  The engine itself (the C
library behind `import "C"`) is not part of the sources; every call into it
is modelled by its result, supplied as an argument, and is recorded in a
call log kept next to the `Runtime` fields.

* namespace `jsapi`    : what the bridge sees of the engine;
* namespace `gomonkey` : `monkey.go`   (package `gomonkey`);
* namespace `monkey`   : `js_value.go` (package `monkey`).
-/

namespace jsapi

/-- Modelled from the spec: the engine's value word `C.jsval` (declared in
`jsapi.h`, which is not among the sources), as the tag set the spec lists for
a value handle: null, void, int, number, boolean, string, object, function.
A number carries its 64 bits, an object or function its heap address. -/
inductive jsval where
  | null
  | void
  | int (n : Int)
  | number (bits : Nat)
  | boolean (b : Bool)
  | string (s : String)
  | object (ref : Nat)
  | function (ref : Nat)
  deriving DecidableEq, Repr

/-- Modelled from the spec: the engine's status type `C.JSBool` (declared in
`jsapi.h`, not among the sources); the engine reports success with `JS_TRUE`
and failure with `JS_FALSE`. -/
inductive JSBool where
  | JS_FALSE
  | JS_TRUE
  deriving DecidableEq, Repr

/-- A `*C.JSObject`: the address of an engine-heap object. -/
abbrev JSObject := Nat

/-- One entry of the engine's GC root set. -/
inductive Root where
  | object (obj : JSObject)
  | value (val : jsval)
  deriving DecidableEq, Repr

/-- The engine entry points the bridge calls. -/
inductive Api where
  | JS_NewRuntime
  | JS_NewContext
  | JS_SetOptions
  | JS_SetVersion
  | JS_SetErrorReporter
  | JS_NewCompartmentAndGlobalObject
  | JS_InitStandardClasses
  | JS_SetRuntimePrivate
  | JS_EvaluateScript
  | JS_CompileScript
  | JS_DefineFunction
  | JS_ExecuteScript
  | JS_CallFunctionValue
  | JS_AddObjectRoot
  | JS_RemoveObjectRoot
  | JS_AddValueRoot
  deriving DecidableEq, Repr

/-- What the bridge uses of a `*C.JSContext`: the GC root set behind it. -/
structure JSContext where
  roots : List Root
  deriving DecidableEq, Repr

end jsapi

namespace gomonkey

open jsapi

/-- Go's `sync.Mutex`. -/
structure Mutex where
  locked : Bool
  deriving DecidableEq, Repr

/-- Go method `(*sync.Mutex).Lock`: `none` when the mutex is already locked (the caller
parks until somebody unlocks it). -/
def Mutex.Lock (m : Mutex) : Option Mutex :=
  if m.locked then none else some { locked := true }

/-- Go method `(*sync.Mutex).Unlock`: `none` when the mutex is not locked (Go stops the
program with "sync: unlock of unlocked mutex"). -/
def Mutex.Unlock (m : Mutex) : Option Mutex :=
  if m.locked then some { locked := false } else none

/-- The struct `ErrorReport`. -/
structure ErrorReport where
  Message : String
  FileName : String
  LineBuf : String
  LineNum : Int
  ErrorNum : Int
  TokenIndex : Int
  Flags : Nat
  deriving DecidableEq, Repr

/-- The struct `Value` (its `rt` pointer is the runtime at hand). -/
structure Value where
  val : jsval
  deriving DecidableEq, Repr

/-- The type `JsFunc`: a host callback, by the result it returns. -/
abbrev JsFunc := List Value → Value × Bool

/-- The type `ErrorReporter`: a host closure, by its identity; the bridge only
ever tests it against nil and calls it. -/
abbrev ErrorReporter := Nat

/-- What the bridge does that is visible outside the `Runtime` fields, in
order: calls on the mutex, calls into the engine API (with `lockBy` and the
state of the mutex at that moment), calls of the error reporter. -/
inductive Event where
  | mutexLock
  | mutexUnlock
  | jsapi (fn : Api) (lockBy : Int) (locked : Bool)
  | errorReporter (f : ErrorReporter) (report : ErrorReport)
  deriving DecidableEq, Repr

/-- The struct `Runtime`.  `rt`, `cx` and `global` point into the engine and
are represented by `cx`; `log` is the call log.  `lockLevel`, a Go `int`, is an
unbounded integer here: it counts operations nested on one goroutine's stack
and stays far from the ends of the 64-bit range. -/
structure Runtime where
  cx : JSContext
  callbacks : String → Option JsFunc
  errorReporter : Option ErrorReporter
  lockBy : Int
  lockLevel : Int
  mutex : Mutex
  log : List Event

/-- Ways a call does not return: the goroutine parks in `mutex.Lock()`, or the
program is stopped by `mutex.Unlock()` of an unlocked mutex.  Each carries the
runtime as it stands at that point. -/
inductive Halt where
  | blocked (r : Runtime)
  | fatal (r : Runtime)

/-- The result of `new(Runtime)` followed by `make(map[string]JsFunc)`: every
field at its zero value, an empty callback map. -/
def Runtime.new : Runtime :=
  { cx := { roots := [] }
    callbacks := fun _ => none
    errorReporter := none
    lockBy := 0
    lockLevel := 0
    mutex := { locked := false }
    log := [] }

/-- Record a call into the engine API. -/
def Runtime.enter (r : Runtime) (fn : Api) : Runtime :=
  { r with log := r.log ++ [Event.jsapi fn r.lockBy r.mutex.locked] }

/-- Source function `Runtime.lock`; `id` is what `goid.Get()` returns. -/
def Runtime.lock (r : Runtime) (id : Int) : Except Halt Runtime :=
  if r.lockBy ≠ id then
    let r1 := { r with log := r.log ++ [Event.mutexLock] }
    match r1.mutex.Lock with
    | none => .error (.blocked r1)
    | some m => .ok { r1 with mutex := m, lockBy := id }
  else
    .ok { r with lockLevel := r.lockLevel + 1 }

/-- Source function `Runtime.unlock`. -/
def Runtime.unlock (r : Runtime) : Except Halt Runtime :=
  let r1 := { r with lockLevel := r.lockLevel - 1 }
  if r1.lockLevel < 0 then
    let r2 := { r1 with lockLevel := 0, lockBy := -1, log := r1.log ++ [Event.mutexUnlock] }
    match r2.mutex.Unlock with
    | none => .error (.fatal r2)
    | some m => .ok { r2 with mutex := m }
  else
    .ok r1

/-- Source function `Runtime.SetErrorReporter`. -/
def Runtime.SetErrorReporter (r : Runtime) (reporter : Option ErrorReporter) : Runtime :=
  { r with errorReporter := reporter }

/-- Source function `Runtime.Null`. -/
def Runtime.Null (_r : Runtime) : Value := { val := jsval.null }

/-- Source function `Runtime.Void`. -/
def Runtime.Void (_r : Runtime) : Value := { val := jsval.void }

/-- What a script-running engine call does, seen from the host: it may run
host callbacks, which may change the runtime, and it yields a status and a
result word. -/
abbrev EngineRun := Runtime → Except Halt (Runtime × JSBool × jsval)

/-- Source function `Runtime.Eval`; `run` is the behaviour of `C.JS_EvaluateScript`.  The
deferred `unlock` runs on both return paths. -/
def Runtime.Eval (r : Runtime) (id : Int) (_script : String) (run : EngineRun) :
    Except Halt (Runtime × Value × Bool) :=
  match r.lock id with
  | .error h => .error h
  | .ok r1 =>
    match run (r1.enter Api.JS_EvaluateScript) with
    | .error h => .error h
    | .ok (r2, status, rval) =>
      let ret : Value × Bool :=
        if status = JSBool.JS_TRUE then ({ val := rval }, true) else (r2.Void, false)
      match r2.unlock with
      | .error h => .error h
      | .ok r3 => .ok (r3, ret)

/-- The struct `Script` (its `runtime` pointer is the runtime at hand). -/
structure Script where
  scriptObj : JSObject
  deriving DecidableEq, Repr

/-- Source function `Runtime.Compile`; `scriptObj` is what `C.JS_CompileScript` returns
(`none` for nil). -/
def Runtime.Compile (r : Runtime) (id : Int) (_script _filename : String) (_lineno : Int)
    (scriptObj : Option JSObject) : Except Halt (Runtime × Option Script) :=
  match r.lock id with
  | .error h => .error h
  | .ok r1 =>
    let r2 := r1.enter Api.JS_CompileScript
    let ret : Option Script :=
      match scriptObj with
      | some o => some { scriptObj := o }
      | none => none
    match r2.unlock with
    | .error h => .error h
    | .ok r3 => .ok (r3, ret)

/-- Source function `Runtime.DefineFunction`; `fn` is what `C.JS_DefineFunction` returns
(`none` for nil). -/
def Runtime.DefineFunction (r : Runtime) (id : Int) (name : String) (callback : JsFunc)
    (fn : Option JSObject) : Except Halt (Runtime × Bool) :=
  match r.lock id with
  | .error h => .error h
  | .ok r1 =>
    let r2 := r1.enter Api.JS_DefineFunction
    match fn with
    | none =>
      match r2.unlock with
      | .error h => .error h
      | .ok r3 => .ok (r3, false)
    | some _ =>
      let r3 := { r2 with callbacks := fun k => if k = name then some callback else r2.callbacks k }
      match r3.unlock with
      | .error h => .error h
      | .ok r4 => .ok (r4, true)

/-- Source function `Script.Execute`; `run` is the behaviour of `C.JS_ExecuteScript`. -/
def Script.Execute (_s : Script) (r : Runtime) (id : Int) (run : EngineRun) :
    Except Halt (Runtime × Value × Bool) :=
  match r.lock id with
  | .error h => .error h
  | .ok r1 =>
    match run (r1.enter Api.JS_ExecuteScript) with
    | .error h => .error h
    | .ok (r2, status, rval) =>
      let ret : Value × Bool :=
        if status = JSBool.JS_TRUE then ({ val := rval }, true) else (r2.Void, false)
      match r2.unlock with
      | .error h => .error h
      | .ok r3 => .ok (r3, ret)

/-- Source function `Value.Call` of `monkey.go`; `run` is the behaviour of
`C.JS_CallFunctionValue`, whose result word starts as `Void()`. -/
def Value.Call (_v : Value) (r : Runtime) (_argv : List Value) (run : EngineRun) :
    Except Halt (Runtime × Value × Bool) :=
  match run (r.enter Api.JS_CallFunctionValue) with
  | .error h => .error h
  | .ok (r1, status, rval) =>
    if status = JSBool.JS_TRUE then .ok (r1, { val := rval }, true)
    else .ok (r1, { val := rval }, false)

/-- Source function `NewRuntime`, run by goroutine `id`.  `rt` and `cx` tell whether
`C.JS_NewRuntime` and `C.JS_NewContext` return non-nil, `init` is the status
of `C.JS_InitStandardClasses`, `fn1` and `fn2` are what `C.JS_DefineFunction`
returns for "print" and "println".  The inner result is `(nil, err)` or
`(r, nil)`. -/
def NewRuntime (id : Int) (_maxbytes : Nat) (rt cx : Bool) (init : JSBool)
    (fn1 fn2 : Option JSObject) : Except Halt (Except String Runtime) :=
  let r := Runtime.new
  let r := r.enter Api.JS_NewRuntime
  if rt = false then .ok (.error "Could't create JSRuntime") else
  let r := r.enter Api.JS_NewContext
  if cx = false then .ok (.error "Could't create JSContext") else
  let r := r.enter Api.JS_SetOptions
  let r := r.enter Api.JS_SetVersion
  let r := r.enter Api.JS_SetErrorReporter
  let r := r.enter Api.JS_NewCompartmentAndGlobalObject
  let r := r.enter Api.JS_InitStandardClasses
  if init ≠ JSBool.JS_TRUE then .ok (.error "Could't init global class") else
  let r := r.enter Api.JS_SetRuntimePrivate
  match r.DefineFunction id "print" (fun _ => (r.Null, true)) fn1 with
  | .error h => .error h
  | .ok (r1, _) =>
    match r1.DefineFunction id "println" (fun _ => (r1.Null, true)) fn2 with
    | .error h => .error h
    | .ok (r2, _) => .ok (.ok r2)

/-- A `*C.char`: the address, and the string `C.GoString` reads there (the
empty string at a nil pointer). -/
structure CString where
  addr : Nat
  text : String
  deriving DecidableEq, Repr

/-- Modelled from the spec: the engine's report `C.JSErrorReport` (declared in
`jsapi.h`, not among the sources), by the data the spec lists for a
diagnostic: file name, line number, line text, the token pointer into the line
text, the flags (warning, exception, strict) and the error code.  `lineno`,
`flags` and `errorNumber` are unsigned 32-bit fields. -/
structure JSErrorReport where
  filename : CString
  lineno : Nat
  linebuf : CString
  tokenptr : Nat
  flags : Nat
  errorNumber : Nat
  deriving DecidableEq, Repr

/-- Subtraction of two `uintptr` values: it wraps at 64 bits. -/
def uintptrSub (a b : Nat) : Nat :=
  (a % 2 ^ 64 + 2 ^ 64 - b % 2 ^ 64) % 2 ^ 64

/-- The conversion `int(x)` of a `uintptr`: the same 64 bits read as signed. -/
def uintptrToInt (x : Nat) : Int :=
  if x % 2 ^ 64 < 2 ^ 63 then ((x % 2 ^ 64 : Nat) : Int) else ((x % 2 ^ 64 : Nat) : Int) - 2 ^ 64

/-- Source function `call_error_func`.  The composite literal names six of the seven fields of
`ErrorReport`; `Flags` is not among them and so has its zero value. -/
def call_error_func (r : Runtime) (message : CString) (report : JSErrorReport) : Runtime :=
  match r.errorReporter with
  | some f =>
    { r with log := r.log ++ [Event.errorReporter f
        { Message := message.text
          FileName := report.filename.text
          LineNum := (report.lineno : Int)
          ErrorNum := (report.errorNumber : Int)
          LineBuf := report.linebuf.text
          TokenIndex := uintptrToInt (uintptrSub report.tokenptr report.linebuf.addr)
          Flags := 0 }] }
  | none => r

/-- Modelled from the spec: the frame `vp *C.jsval` the engine hands to a
native function (its layout is fixed by `jsapi.h`, not among the sources): the
engine's return slot and the ordered, engine-supplied arguments. -/
structure Vp where
  rval : jsval
  argv : Int → jsval

/-- Modelled from the spec: the C helper `JS_GET_ARGV` (declared `extern` in
`monkey.go`, defined outside the sources): the `n`-th engine-supplied
argument. -/
def JS_GET_ARGV (vp : Vp) (n : Int) : jsval := vp.argv n

/-- Modelled from the spec: the C helper `_JS_SET_RVAL` (declared `extern` in
`monkey.go`, defined outside the sources): writes `v` into the engine's return
slot. -/
def _JS_SET_RVAL (vp : Vp) (v : jsval) : Vp := { vp with rval := v }

/-- The conversion `C.int(i)` of a Go `int`: the low 32 bits read as signed. -/
def toCInt (i : Int) : Int :=
  (i + 2 ^ 31) % 2 ^ 32 - 2 ^ 31

/-- The slice `argv` that `call_go_func` builds from the frame. -/
def call_go_func.argv (argc : Nat) (vp : Vp) : List Value :=
  (List.range argc).map fun i => { val := JS_GET_ARGV vp (toCInt i) }

/-- Source function `call_go_func`; `none` when the map holds no entry for the name (the call
of a nil func panics). -/
def call_go_func (r : Runtime) (name : String) (argc : Nat) (vp : Vp) : Option (Vp × JSBool) :=
  let argv := call_go_func.argv argc vp
  match r.callbacks name with
  | none => none
  | some f =>
    let (result, ok) := f argv
    if ok then some (_JS_SET_RVAL vp result.val, JSBool.JS_TRUE)
    else some (vp, JSBool.JS_FALSE)

/-- The struct `Object` of `monkey.go` (its `rt` pointer is the runtime at
hand). -/
structure Object where
  obj : JSObject
  deriving DecidableEq, Repr

/-- Source function `newObject` of `monkey.go`: the handle, and the runtime after
`C.JS_AddObjectRoot`.  The finalizer it registers is `newObject.finalizer`. -/
def newObject (rt : Runtime) (obj : JSObject) : Runtime × Object :=
  let rt1 := rt.enter Api.JS_AddObjectRoot
  ({ rt1 with cx := { roots := Root.object obj :: rt1.cx.roots } }, { obj := obj })

/-- The closure `newObject` passes to `runtime.SetFinalizer`, run by the Go
collector on the handle `o`. -/
def newObject.finalizer (rt : Runtime) (o : Object) : Runtime :=
  let rt1 := rt.enter Api.JS_RemoveObjectRoot
  { rt1 with cx := { roots := rt1.cx.roots.erase (Root.object o.obj) } }

/-- The runtime `NewRuntime` returns to goroutine 1 when every engine call
of the construction succeeds. -/
def sampleRuntime : Runtime :=
  match NewRuntime 1 8388608 true true JSBool.JS_TRUE (some 1) (some 2) with
  | .ok (.ok r) => r
  | _ => Runtime.new

/-- An engine run that calls no host callback and yields `status` and
`rval`. -/
def quietRun (status : JSBool) (rval : jsval) : EngineRun :=
  fun r => .ok (r, status, rval)

/-- A call of `lock()` or of `unlock()`. -/
inductive LockCall where
  | lock
  | unlock
  deriving DecidableEq, Repr

/-- Goroutine `id` makes one call on `r`. -/
def LockCall.apply (id : Int) (r : Runtime) : LockCall → Except Halt Runtime
  | .lock => r.lock id
  | .unlock => r.unlock

/-- Goroutine `id` makes the calls of the list on `r`, in order. -/
def runCalls (id : Int) (r : Runtime) : List LockCall → Except Halt Runtime
  | [] => .ok r
  | c :: cs =>
    match c.apply id r with
    | .error h => .error h
    | .ok r1 => runCalls id r1 cs

/-- Number of `lock()` calls minus number of `unlock()` calls. -/
def net : List LockCall → Int
  | [] => 0
  | .lock :: cs => net cs + 1
  | .unlock :: cs => net cs - 1

/-- Goroutine `id` holds the lock of `r` at depth `d`; depth 0 means that the
mutex is free and `id` is not recorded as the owner. -/
def LockDepth (id : Int) (r : Runtime) : Nat → Prop
  | 0 => r.mutex.locked = false ∧ r.lockBy ≠ id ∧ r.lockLevel = 0
  | d + 1 => r.mutex.locked = true ∧ r.lockBy = id ∧ r.lockLevel = d

/-- The runtime `DefineFunction` leaves behind (the runtime itself when the
call does not return). -/
def Runtime.afterDefineFunction (r : Runtime) (id : Int) (name : String) (callback : JsFunc)
    (fn : Option JSObject) : Runtime :=
  match r.DefineFunction id name callback fn with
  | .ok (r1, _) => r1
  | .error _ => r

/-- A host callback: its first argument plus one when that is an int, failure
otherwise. -/
def addOne : JsFunc
  | { val := jsval.int n } :: _ => ({ val := jsval.int (n + 1) }, true)
  | _ => ({ val := jsval.void }, false)

/-- A host callback: its first argument plus two when that is an int, failure
otherwise. -/
def addTwo : JsFunc
  | { val := jsval.int n } :: _ => ({ val := jsval.int (n + 2) }, true)
  | _ => ({ val := jsval.void }, false)

/-- A frame with the single argument `v` and a void return slot. -/
def Vp.single (v : jsval) : Vp :=
  { rval := jsval.void, argv := fun i => if i = 0 then v else jsval.void }

/-- An engine diagnostic: an uncaught reference error, flagged as an exception
(the bit 0x2), with the token at offset 8 of the line. -/
def sampleReport : JSErrorReport :=
  { filename := { addr := 2000, text := "main.js" }
    lineno := 3
    linebuf := { addr := 3000, text := "var x = nonexistentFn()" }
    tokenptr := 3008
    flags := 2
    errorNumber := 1 }

/-- The state an operation of goroutine `id`, entered at depth `d`, has to
leave behind: `id` holds the lock at depth `d` again, and at depth 0 (the mutex
is free) every goroutine with a positive id can take the lock next. -/
def Released (id : Int) (d : Nat) (r : Runtime) : Prop :=
  LockDepth id r d ∧ (d = 0 → ∀ id2 : Int, 0 < id2 → ∃ r1, r.lock id2 = .ok r1)

/-- An engine run in which the script calls a host callback, the callback
evaluates a second script on the same runtime (from goroutine `id`), and the
outer script then yields `rval`. -/
def nestedRun (id : Int) (inner : String) (innerRval rval : jsval) : EngineRun :=
  fun r =>
    match r.Eval id inner (quietRun JSBool.JS_TRUE innerRval) with
    | .error h => .error h
    | .ok (r1, _) => .ok (r1, JSBool.JS_TRUE, rval)

end gomonkey

namespace monkey

open jsapi

/-- The struct `Value` of `js_value.go` (its `cx` pointer is the context at
hand). -/
structure Value where
  val : jsval
  deriving DecidableEq, Repr

/-- Modelled from the spec: the type `Runtime` of package `monkey` (declared
in a file that is not among the sources), by the one field `js_value.go`
touches: `valDisposeChan`, the disposal queue of unroot requests; a send
appends to it. -/
structure Runtime where
  valDisposeChan : List Value
  deriving DecidableEq, Repr

/-- Modelled from the spec: the type `Context` of package `monkey` (declared
in a file that is not among the sources), by the fields `js_value.go`
touches: `jscx`, the engine context with its GC root set, and `rt`.  `calls`
lists the engine entry points called so far. -/
structure Context where
  jscx : JSContext
  rt : Runtime
  calls : List Api
  deriving DecidableEq, Repr

/-- Source function `newValue`: the handle, and the context after `C.JS_AddValueRoot`.  The
finalizer it registers is `newValue.finalizer`. -/
def newValue (cx : Context) (val : jsval) : Context × Value :=
  ({ cx with jscx := { roots := Root.value val :: cx.jscx.roots }
             calls := cx.calls ++ [Api.JS_AddValueRoot] }, { val := val })

/-- The closure `newValue` passes to `runtime.SetFinalizer`: the send
`cx.rt.valDisposeChan <- v`. -/
def newValue.finalizer (cx : Context) (v : Value) : Context :=
  { cx with rt := { valDisposeChan := cx.rt.valDisposeChan ++ [v] } }

/-- The struct `Object` that `ToObject` returns. -/
structure Object where
  obj : JSObject
  deriving DecidableEq, Repr

/-- The struct `Array` that `ToArray` returns. -/
structure Array where
  obj : JSObject
  deriving DecidableEq, Repr

/-- What `ToGo` returns, an `interface{}`: a `bool`, an `int32`, a `float64`
(by its bits), a `string`, whatever `(*Object).ToGo` makes of the object handle
(that method is not among the sources, so its result is kept symbolic), a
`[]interface{}`, or nil. -/
inductive GoValue where
  | bool (b : Bool)
  | int32 (n : Int)
  | float64 (bits : Nat)
  | string (s : String)
  | objectToGo (o : Option Object)
  | slice (xs : List GoValue)
  | nil

/-- Ways `ToGo` yields no value: a Go panic, or the recursion bound of the
model is used up. -/
inductive ToGoError where
  | panic (msg : String)
  | fuel
  deriving DecidableEq, Repr

/-- The engine's answers to the questions `js_value.go` asks it; the macros
and functions are those of `jsapi.h`, the last two the methods of `Array`
(none of them among the sources).  A predicate is `true` when the engine
answers `JS_TRUE`; a conversion is `none` when the engine reports failure. -/
structure Engine where
  JSVAL_IS_NULL : jsval → Bool
  JSVAL_IS_VOID : jsval → Bool
  JSVAL_IS_INT : jsval → Bool
  JSVAL_IS_NUMBER : jsval → Bool
  JSVAL_IS_BOOLEAN : jsval → Bool
  JSVAL_IS_STRING : jsval → Bool
  JSVAL_IS_OBJECT : jsval → Bool
  JSVAL_TO_OBJECT : jsval → JSObject
  JS_IsArrayObject : JSObject → Bool
  JS_ObjectIsFunction : JSObject → Bool
  JS_ValueToInt32 : jsval → Option Int
  JS_ValueToNumber : jsval → Option Nat
  JS_ValueToBoolean : jsval → Option Bool
  JS_ValueToString : jsval → String
  JS_ValueToObject : jsval → Option JSObject
  Array_GetLength : Array → Nat
  Array_GetElement : Array → Nat → Value

/-- Source function `Value.IsNull`. -/
def Value.IsNull (E : Engine) (v : Value) : Bool := E.JSVAL_IS_NULL v.val

/-- Source function `Value.IsVoid`. -/
def Value.IsVoid (E : Engine) (v : Value) : Bool := E.JSVAL_IS_VOID v.val

/-- Source function `Value.IsInt`. -/
def Value.IsInt (E : Engine) (v : Value) : Bool := E.JSVAL_IS_INT v.val

/-- Source function `Value.IsNumber`. -/
def Value.IsNumber (E : Engine) (v : Value) : Bool := E.JSVAL_IS_NUMBER v.val

/-- Source function `Value.IsBoolean`. -/
def Value.IsBoolean (E : Engine) (v : Value) : Bool := E.JSVAL_IS_BOOLEAN v.val

/-- Source function `Value.IsString`. -/
def Value.IsString (E : Engine) (v : Value) : Bool := E.JSVAL_IS_STRING v.val

/-- Source function `Value.IsObject`. -/
def Value.IsObject (E : Engine) (v : Value) : Bool := E.JSVAL_IS_OBJECT v.val

/-- Source function `Value.IsArray`. -/
def Value.IsArray (E : Engine) (v : Value) : Bool :=
  v.IsObject E && E.JS_IsArrayObject (E.JSVAL_TO_OBJECT v.val)

/-- Source function `Value.IsFunction`. -/
def Value.IsFunction (E : Engine) (v : Value) : Bool :=
  v.IsObject E && E.JS_ObjectIsFunction (E.JSVAL_TO_OBJECT v.val)

/-- Source function `Value.ToInt`. -/
def Value.ToInt (E : Engine) (v : Value) : Int × Bool :=
  match E.JS_ValueToInt32 v.val with
  | some n => (n, true)
  | none => (0, false)

/-- Source function `Value.ToNumber`. -/
def Value.ToNumber (E : Engine) (v : Value) : Nat × Bool :=
  match E.JS_ValueToNumber v.val with
  | some x => (x, true)
  | none => (0, false)

/-- Source function `Value.ToBoolean`. -/
def Value.ToBoolean (E : Engine) (v : Value) : Bool × Bool :=
  match E.JS_ValueToBoolean v.val with
  | some b => if b = true then (true, true) else (false, true)
  | none => (false, false)

/-- Source function `Value.ToString`. -/
def Value.ToString (E : Engine) (v : Value) : String := E.JS_ValueToString v.val

/-- Source function `Value.String`. -/
def Value.String (E : Engine) (v : Value) : String := v.ToString E

/-- Source function `Value.ToObject`, by the handle it returns (`none` for nil). -/
def Value.ToObject (E : Engine) (v : Value) : Option Object :=
  match E.JS_ValueToObject v.val with
  | some obj => some { obj := obj }
  | none => none

/-- Source function `Value.ToArray`, by the handle it returns (`none` for nil). -/
def Value.ToArray (E : Engine) (v : Value) : Option Array :=
  match E.JS_ValueToObject v.val with
  | some obj => if E.JS_IsArrayObject obj then some { obj := obj } else none
  | none => none

/-- Source function `Value.ToGo`.  The first argument bounds the depth of the recursion in the
array arm; a nil `*Array` there is a nil dereference. -/
def Value.ToGo (E : Engine) : Nat → Value → Except ToGoError GoValue
  | 0, _ => .error .fuel
  | fuel + 1, v =>
    if v.IsBoolean E then .ok (.bool (v.ToBoolean E).1)
    else if v.IsInt E then .ok (.int32 (v.ToInt E).1)
    else if v.IsNumber E then .ok (.float64 (v.ToNumber E).1)
    else if v.IsString E then .ok (.string (v.String E))
    else if v.IsObject E then .ok (.objectToGo (v.ToObject E))
    else if v.IsArray E then
      match v.ToArray E with
      | none => .error (.panic "nil pointer dereference")
      | some arr =>
        match (List.range (E.Array_GetLength arr)).mapM
            (fun i => Value.ToGo E fuel (E.Array_GetElement arr i)) with
        | .error e => .error e
        | .ok goArr => .ok (.slice goArr)
    else if v.IsNull E then .ok .nil
    else .error (.panic "unsupported js type")

/-- An engine in which object and function words are objects, the object at
address 16 is the one array, and every conversion succeeds. -/
def sampleEngine : Engine :=
  { JSVAL_IS_NULL := fun v => v = jsval.null
    JSVAL_IS_VOID := fun v => v = jsval.void
    JSVAL_IS_INT := fun v => match v with | jsval.int _ => true | _ => false
    JSVAL_IS_NUMBER := fun v =>
      match v with | jsval.int _ => true | jsval.number _ => true | _ => false
    JSVAL_IS_BOOLEAN := fun v => match v with | jsval.boolean _ => true | _ => false
    JSVAL_IS_STRING := fun v => match v with | jsval.string _ => true | _ => false
    JSVAL_IS_OBJECT := fun v =>
      match v with | jsval.object _ => true | jsval.function _ => true | _ => false
    JSVAL_TO_OBJECT := fun v =>
      match v with | jsval.object o => o | jsval.function o => o | _ => 0
    JS_IsArrayObject := fun o => o = 16
    JS_ObjectIsFunction := fun _ => false
    JS_ValueToInt32 := fun v => match v with | jsval.int n => some n | _ => some 0
    JS_ValueToNumber := fun v => match v with | jsval.number x => some x | _ => some 0
    JS_ValueToBoolean := fun v => match v with | jsval.boolean b => some b | _ => some true
    JS_ValueToString := fun v => match v with | jsval.string s => s | _ => "[object]"
    JS_ValueToObject := fun v =>
      match v with | jsval.object o => some o | jsval.function o => some o | _ => none
    Array_GetLength := fun _ => 2
    Array_GetElement := fun _ i => { val := jsval.int i } }

end monkey

namespace gomonkey

open jsapi

/-! ## The lock: `lock()` and `unlock()` -/

theorem lock_of_free (id : Int) (r : Runtime) (hm : r.mutex.locked = false)
    (hb : r.lockBy ≠ id) :
    r.lock id = .ok { r with log := r.log ++ [Event.mutexLock], mutex := { locked := true },
                             lockBy := id } := by
  simp [Runtime.lock, Mutex.Lock, hm, hb]

theorem lock_of_owner (id : Int) (r : Runtime) (hb : r.lockBy = id) :
    r.lock id = .ok { r with lockLevel := r.lockLevel + 1 } := by
  simp [Runtime.lock, hb]

theorem unlock_of_nested (r : Runtime) (hl : 0 < r.lockLevel) :
    r.unlock = .ok { r with lockLevel := r.lockLevel - 1 } := by
  have : ¬ (r.lockLevel - 1 < 0) := by omega
  simp [Runtime.unlock, this]

theorem unlock_of_outermost (r : Runtime) (hl : r.lockLevel ≤ 0) (hm : r.mutex.locked = true) :
    r.unlock = .ok { r with lockLevel := 0, lockBy := -1, log := r.log ++ [Event.mutexUnlock],
                            mutex := { locked := false } } := by
  have : r.lockLevel - 1 < 0 := by omega
  simp [Runtime.unlock, Mutex.Unlock, this, hm]

theorem unlock_of_free (r : Runtime) (hl : r.lockLevel ≤ 0) (hm : r.mutex.locked = false) :
    r.unlock = .error (.fatal { r with lockLevel := 0, lockBy := -1,
                                       log := r.log ++ [Event.mutexUnlock] }) := by
  have : r.lockLevel - 1 < 0 := by omega
  simp [Runtime.unlock, Mutex.Unlock, this, hm]

theorem lock_at_depth (id : Int) (r : Runtime) (d : Nat) (h : LockDepth id r d) :
    ∃ r1, r.lock id = .ok r1 ∧ LockDepth id r1 (d + 1) ∧
      r1.log = (if d = 0 then r.log ++ [Event.mutexLock] else r.log) ∧
      r1.cx = r.cx ∧ r1.callbacks = r.callbacks ∧ r1.errorReporter = r.errorReporter := by
  cases d with
  | zero =>
    obtain ⟨hm, hb, hl⟩ := h
    exact ⟨_, lock_of_free id r hm hb, ⟨rfl, rfl, by simpa using hl⟩, by simp, rfl, rfl, rfl⟩
  | succ n =>
    obtain ⟨hm, hb, hl⟩ := h
    exact ⟨_, lock_of_owner id r hb, ⟨hm, hb, by simp [hl]⟩, by simp, rfl, rfl, rfl⟩

theorem unlock_at_depth (id : Int) (hid : 0 < id) (r : Runtime) (d : Nat)
    (h : LockDepth id r (d + 1)) :
    ∃ r1, r.unlock = .ok r1 ∧ LockDepth id r1 d ∧
      r1.log = (if d = 0 then r.log ++ [Event.mutexUnlock] else r.log) ∧
      r1.cx = r.cx ∧ r1.callbacks = r.callbacks ∧ r1.errorReporter = r.errorReporter ∧
      (d = 0 → r1.lockBy = -1) := by
  obtain ⟨hm, hb, hl⟩ := h
  cases d with
  | zero =>
    refine ⟨_, unlock_of_outermost r (by simp [hl]) hm, ⟨rfl, ?_, rfl⟩, by simp, rfl, rfl, rfl,
      fun _ => rfl⟩
    show (-1 : Int) ≠ id
    omega
  | succ n =>
    refine ⟨_, unlock_of_nested r (by rw [hl]; push_cast; omega), ⟨hm, hb, ?_⟩, by simp, rfl, rfl,
      rfl, by simp⟩
    show r.lockLevel - 1 = n
    rw [hl]; push_cast; omega

theorem runCalls_append (id : Int) (r : Runtime) (p q : List LockCall) :
    runCalls id r (p ++ q) =
      (match runCalls id r p with
       | .error h => .error h
       | .ok r1 => runCalls id r1 q) := by
  induction p generalizing r with
  | nil => rfl
  | cons c cs ih =>
    simp only [List.cons_append, runCalls]
    cases c.apply id r with
    | error h => rfl
    | ok r1 => exact ih r1

theorem net_append (p q : List LockCall) : net (p ++ q) = net p + net q := by
  induction p with
  | nil => simp [net]
  | cons c cs ih => cases c <;> simp [net, ih] <;> omega

theorem NewRuntime_unlocked (c : Int) (hc : 0 < c) (maxbytes : Nat) (rt cx : Bool) (init : JSBool)
    (fn1 fn2 : Option JSObject) (r0 : Runtime)
    (hnew : NewRuntime c maxbytes rt cx init fn1 fn2 = .ok (.ok r0)) :
    r0.mutex.locked = false ∧ r0.lockBy = -1 ∧ r0.lockLevel = 0 := by
  have hc0 : ¬ (0 = c) := by omega
  have hc1 : ¬ (-1 = c) := by omega
  cases rt <;> cases cx <;> cases init <;> cases fn1 <;> cases fn2 <;>
    simp [NewRuntime, Runtime.DefineFunction, Runtime.lock, Runtime.unlock, Runtime.enter,
      Runtime.new, Mutex.Lock, Mutex.Unlock, hc0, hc1] at hnew <;>
    subst hnew <;> simp

theorem runCalls_depth (id : Int) (hid : 0 < id) (r0 : Runtime) (h0 : LockDepth id r0 0)
    (p : List LockCall) (hp : ∀ q ∈ p.inits, 0 ≤ net q) :
    ∃ r, runCalls id r0 p = .ok r ∧ LockDepth id r (net p).toNat := by
  induction p using List.reverseRecOn with
  | nil => exact ⟨r0, rfl, h0⟩
  | append_singleton p c ih =>
    have hp1 : ∀ q ∈ p.inits, 0 ≤ net q := by
      intro q hq
      apply hp
      rw [List.mem_inits] at hq ⊢
      exact hq.trans ⟨[c], rfl⟩
    obtain ⟨r, hr, hd⟩ := ih hp1
    have hnp : 0 ≤ net p := hp1 p (by rw [List.mem_inits])
    have hnpc : 0 ≤ net (p ++ [c]) := hp _ (by rw [List.mem_inits])
    rw [runCalls_append, hr]
    cases c with
    | lock =>
      obtain ⟨r1, h1, hd1, -⟩ := lock_at_depth id r _ hd
      refine ⟨r1, by simp [runCalls, LockCall.apply, h1], ?_⟩
      have : (net (p ++ [LockCall.lock])).toNat = (net p).toNat + 1 := by
        rw [net_append]; simp [net]; omega
      rw [this]; exact hd1
    | unlock =>
      have hnet : net (p ++ [LockCall.unlock]) = net p - 1 := by
        rw [net_append]; simp [net]; omega
      have hsplit : (net p).toNat = (net (p ++ [LockCall.unlock])).toNat + 1 := by
        rw [hnet] at hnpc ⊢; omega
      rw [hsplit] at hd
      obtain ⟨r1, h1, hd1, -⟩ := unlock_at_depth id hid r _ hd
      exact ⟨r1, by simp [runCalls, LockCall.apply, h1], hd1⟩

/-! ### C1 -/

/-- C1: on a freshly constructed `Runtime` (built by a goroutine with a
positive id), for a goroutine with a positive id and a sequence of
`lock()`/`unlock()` calls none of whose prefixes has more unlocks than locks:
after each prefix the calls have returned and the mutex is held exactly when
the net depth (locks minus unlocks) is positive; the next call returns too,
a `lock()` at positive depth calls nothing on the mutex, a `lock()` at depth 0
calls `mutex.Lock()` once, and an `unlock()` calls `mutex.Unlock()` (once)
exactly when it brings the depth from 1 to 0. -/
theorem lock_unlock_mutex_held_iff_depth_positive
    (c id : Int) (hc : 0 < c) (hid : 0 < id) (maxbytes : Nat) (rt cx : Bool) (init : JSBool)
    (fn1 fn2 : Option JSObject) (r0 : Runtime)
    (hnew : NewRuntime c maxbytes rt cx init fn1 fn2 = .ok (.ok r0))
    (calls : List LockCall) (hbal : ∀ p ∈ calls.inits, 0 ≤ net p) :
    ∀ p ∈ calls.inits, ∃ r, runCalls id r0 p = .ok r ∧
      (r.mutex.locked = true ↔ 0 < net p) ∧
      ∀ call, p ++ [call] ∈ calls.inits → ∃ r1, call.apply id r = .ok r1 ∧
        (call = LockCall.lock → 0 < net p → r1.log = r.log) ∧
        (call = LockCall.lock → net p = 0 → r1.log = r.log ++ [Event.mutexLock]) ∧
        (call = LockCall.unlock → net p = 1 → r1.log = r.log ++ [Event.mutexUnlock]) ∧
        (call = LockCall.unlock → net p ≠ 1 → r1.log = r.log) := by
  intro p hp
  obtain ⟨hm0, hb0, hl0⟩ := NewRuntime_unlocked c hc maxbytes rt cx init fn1 fn2 r0 hnew
  have h0 : LockDepth id r0 0 := ⟨hm0, by rw [hb0]; omega, hl0⟩
  have hpre : ∀ q ∈ p.inits, 0 ≤ net q := by
    intro q hq
    apply hbal
    rw [List.mem_inits] at hq hp ⊢
    exact hq.trans hp
  obtain ⟨r, hr, hd⟩ := runCalls_depth id hid r0 h0 p hpre
  have hnp : 0 ≤ net p := hbal p hp
  refine ⟨r, hr, ?_, ?_⟩
  · obtain ⟨n, hn⟩ : ∃ n, (net p).toNat = n := ⟨_, rfl⟩
    rw [hn] at hd
    cases n with
    | zero =>
      have : net p = 0 := by omega
      rw [this, hd.1]; simp
    | succ n =>
      have : 0 < net p := by omega
      simp [hd.1, this]
  · intro call hcall
    have hnpc : 0 ≤ net (p ++ [call]) := hbal _ hcall
    rw [net_append] at hnpc
    cases call with
    | lock =>
      obtain ⟨r1, h1, -, hlog, -⟩ := lock_at_depth id r _ hd
      refine ⟨r1, h1, ?_, ?_, by simp, by simp⟩
      · intro _ hpos
        rw [hlog, if_neg (by omega)]
      · intro _ hz
        rw [hlog, if_pos (by omega)]
    | unlock =>
      have hge : 1 ≤ net p := by simp [net] at hnpc; omega
      obtain ⟨n, hn⟩ : ∃ n, (net p).toNat = n + 1 := ⟨(net p).toNat - 1, by omega⟩
      rw [hn] at hd
      obtain ⟨r1, h1, -, hlog, -⟩ := unlock_at_depth id hid r _ hd
      refine ⟨r1, h1, by simp, by simp, ?_, ?_⟩
      · intro _ hone
        rw [hlog, if_pos (by omega)]
      · intro _ hne
        rw [hlog, if_neg (by omega)]

theorem sampleRuntime_new :
    NewRuntime 1 8388608 true true JSBool.JS_TRUE (some 1) (some 2) = .ok (.ok sampleRuntime) :=
  rfl

/-- C1 at goroutine 2, the calls lock, lock, unlock, unlock and the prefix
lock, lock on the sample runtime. -/
theorem lock_unlock_mutex_held_iff_depth_positive_witness :
    ∃ r, runCalls 2 sampleRuntime [LockCall.lock, LockCall.lock] = .ok r ∧
      (r.mutex.locked = true ↔ 0 < net [LockCall.lock, LockCall.lock]) ∧
      ∀ call, [LockCall.lock, LockCall.lock] ++ [call] ∈
          [LockCall.lock, LockCall.lock, LockCall.unlock, LockCall.unlock].inits →
        ∃ r1, call.apply 2 r = .ok r1 ∧
        (call = LockCall.lock → 0 < net [LockCall.lock, LockCall.lock] → r1.log = r.log) ∧
        (call = LockCall.lock → net [LockCall.lock, LockCall.lock] = 0 →
          r1.log = r.log ++ [Event.mutexLock]) ∧
        (call = LockCall.unlock → net [LockCall.lock, LockCall.lock] = 1 →
          r1.log = r.log ++ [Event.mutexUnlock]) ∧
        (call = LockCall.unlock → net [LockCall.lock, LockCall.lock] ≠ 1 → r1.log = r.log) :=
  lock_unlock_mutex_held_iff_depth_positive 1 2 (by decide) (by decide) 8388608 true true
    JSBool.JS_TRUE (some 1) (some 2) sampleRuntime rfl
    [LockCall.lock, LockCall.lock, LockCall.unlock, LockCall.unlock] (by decide)
    [LockCall.lock, LockCall.lock] (by decide)

/-! ### C2 -/

/-- C2 (counterexample): on the sample runtime, whose lock nobody holds, an
`unlock()` with no matching `lock()` does call `mutex.Unlock()` on the unlocked
mutex, and the program is stopped there. -/
theorem excess_unlock_calls_mutex_Unlock :
    sampleRuntime.mutex.locked = false ∧ sampleRuntime.lockLevel = 0 ∧
      ∃ r1, sampleRuntime.unlock = .error (Halt.fatal r1) ∧
        r1.log = sampleRuntime.log ++ [Event.mutexUnlock] :=
  ⟨rfl, rfl, _, rfl, rfl⟩

/-- C2 (as amended): in every state reached from a freshly constructed
`Runtime` by a balanced sequence of `lock()`/`unlock()` calls (the empty
sequence included) the lock is not held, and an excess `unlock()` there leaves
`lockLevel` at 0, not below, but it does call `mutex.Unlock()` on the
already-unlocked mutex: the call does not return, Go stops the program. -/
theorem excess_unlock_level_zero_mutex_fatal
    (c id : Int) (hc : 0 < c) (hid : 0 < id) (maxbytes : Nat) (rt cx : Bool) (init : JSBool)
    (fn1 fn2 : Option JSObject) (r0 : Runtime)
    (hnew : NewRuntime c maxbytes rt cx init fn1 fn2 = .ok (.ok r0))
    (calls : List LockCall) (hbal : ∀ p ∈ calls.inits, 0 ≤ net p) (hnet : net calls = 0) :
    ∃ r r1, runCalls id r0 calls = .ok r ∧ r.mutex.locked = false ∧ r.lockLevel = 0 ∧
      r.unlock = .error (Halt.fatal r1) ∧ r1.lockLevel = 0 ∧ r1.mutex.locked = false ∧
      r1.log = r.log ++ [Event.mutexUnlock] := by
  obtain ⟨hm0, hb0, hl0⟩ := NewRuntime_unlocked c hc maxbytes rt cx init fn1 fn2 r0 hnew
  have h0 : LockDepth id r0 0 := ⟨hm0, by rw [hb0]; omega, hl0⟩
  obtain ⟨r, hr, hd⟩ := runCalls_depth id hid r0 h0 calls hbal
  rw [hnet] at hd
  obtain ⟨hm, -, hl⟩ := hd
  exact ⟨r, _, hr, hm, hl, unlock_of_free r (by omega) hm, rfl, hm, rfl⟩

/-- C2 as amended, at goroutine 2 and the calls lock, unlock on the sample
runtime. -/
theorem excess_unlock_level_zero_mutex_fatal_witness :
    ∃ r r1, runCalls 2 sampleRuntime [LockCall.lock, LockCall.unlock] = .ok r ∧
      r.mutex.locked = false ∧ r.lockLevel = 0 ∧
      r.unlock = .error (Halt.fatal r1) ∧ r1.lockLevel = 0 ∧ r1.mutex.locked = false ∧
      r1.log = r.log ++ [Event.mutexUnlock] :=
  excess_unlock_level_zero_mutex_fatal 1 2 (by decide) (by decide) 8388608 true true
    JSBool.JS_TRUE (some 1) (some 2) sampleRuntime rfl
    [LockCall.lock, LockCall.unlock] (by decide) (by decide)

/-! ### C3 -/

theorem LockDepth_enter (id : Int) (r : Runtime) (d : Nat) (fn : Api) (h : LockDepth id r d) :
    LockDepth id (r.enter fn) d := by
  cases d <;> exact h

theorem released_of_unlock (id : Int) (hid : 0 < id) (r : Runtime) (d : Nat)
    (hd : LockDepth id r (d + 1)) :
    ∃ r1, r.unlock = .ok r1 ∧ Released id d r1 ∧ r1.cx = r.cx ∧ r1.callbacks = r.callbacks := by
  obtain ⟨r1, h1, hd1, -, hcx, hcb, -, hby⟩ := unlock_at_depth id hid r d hd
  refine ⟨r1, h1, ⟨hd1, ?_⟩, hcx, hcb⟩
  intro hz id2 hid2
  subst hz
  exact ⟨_, lock_of_free id2 r1 hd1.1 (by rw [hby rfl]; omega)⟩

/-- What `Eval` and `Execute` do around the engine call, at depth `d`. -/
theorem scoped_run_at_depth (id : Int) (hid : 0 < id) (r : Runtime) (d : Nat)
    (hd : LockDepth id r d) (fn : Api) (run : EngineRun)
    (hrun : ∀ r1, LockDepth id r1 (d + 1) →
      ∃ r2 status rval, run r1 = .ok (r2, status, rval) ∧ LockDepth id r2 (d + 1)) :
    ∃ r1 r2 status rval r3, r.lock id = .ok r1 ∧
      run (r1.enter fn) = .ok (r2, status, rval) ∧ r2.unlock = .ok r3 ∧ Released id d r3 := by
  obtain ⟨r1, h1, hd1, -⟩ := lock_at_depth id r d hd
  obtain ⟨r2, status, rval, h2, hd2⟩ := hrun _ (LockDepth_enter id r1 _ fn hd1)
  obtain ⟨r3, h3, hd3, -⟩ := released_of_unlock id hid r2 d hd2
  exact ⟨r1, r2, status, rval, r3, h1, h2, h3, hd3⟩

theorem Eval_at_depth (id : Int) (hid : 0 < id) (r : Runtime) (d : Nat)
    (hd : LockDepth id r d) (script : String) (run : EngineRun)
    (hrun : ∀ r1, LockDepth id r1 (d + 1) →
      ∃ r2 status rval, run r1 = .ok (r2, status, rval) ∧ LockDepth id r2 (d + 1)) :
    ∃ r3 ret, r.Eval id script run = .ok (r3, ret) ∧ Released id d r3 := by
  obtain ⟨r1, r2, status, rval, r3, h1, h2, h3, hd3⟩ :=
    scoped_run_at_depth id hid r d hd Api.JS_EvaluateScript run hrun
  exact ⟨r3, _, by simp only [Runtime.Eval, h1, h2, h3]; rfl, hd3⟩

theorem Execute_at_depth (id : Int) (hid : 0 < id) (r : Runtime) (d : Nat)
    (hd : LockDepth id r d) (s : Script) (run : EngineRun)
    (hrun : ∀ r1, LockDepth id r1 (d + 1) →
      ∃ r2 status rval, run r1 = .ok (r2, status, rval) ∧ LockDepth id r2 (d + 1)) :
    ∃ r3 ret, s.Execute r id run = .ok (r3, ret) ∧ Released id d r3 := by
  obtain ⟨r1, r2, status, rval, r3, h1, h2, h3, hd3⟩ :=
    scoped_run_at_depth id hid r d hd Api.JS_ExecuteScript run hrun
  exact ⟨r3, _, by simp only [Script.Execute, h1, h2, h3]; rfl, hd3⟩

theorem Compile_at_depth (id : Int) (hid : 0 < id) (r : Runtime) (d : Nat)
    (hd : LockDepth id r d) (script filename : String) (lineno : Int)
    (scriptObj : Option JSObject) :
    ∃ r3 ret, r.Compile id script filename lineno scriptObj = .ok (r3, ret) ∧
      Released id d r3 := by
  obtain ⟨r1, h1, hd1, -⟩ := lock_at_depth id r d hd
  obtain ⟨r3, h3, hd3, -⟩ :=
    released_of_unlock id hid _ d (LockDepth_enter id r1 _ Api.JS_CompileScript hd1)
  exact ⟨r3, _, by simp only [Runtime.Compile, h1, h3]; rfl, hd3⟩

theorem DefineFunction_at_depth (id : Int) (hid : 0 < id) (r : Runtime) (d : Nat)
    (hd : LockDepth id r d) (name : String) (callback : JsFunc) (fn : Option JSObject) :
    ∃ r3 ret, r.DefineFunction id name callback fn = .ok (r3, ret) ∧ Released id d r3 := by
  obtain ⟨r1, h1, hd1, -⟩ := lock_at_depth id r d hd
  have hd2 := LockDepth_enter id r1 _ Api.JS_DefineFunction hd1
  cases fn with
  | none =>
    obtain ⟨r3, h3, hd3, -⟩ := released_of_unlock id hid _ d hd2
    exact ⟨r3, _, by simp only [Runtime.DefineFunction, h1, h3]; rfl, hd3⟩
  | some f =>
    have hd2' : LockDepth id
        { r1.enter Api.JS_DefineFunction with
          callbacks := fun k => if k = name then some callback
                                else (r1.enter Api.JS_DefineFunction).callbacks k } (d + 1) := hd2
    obtain ⟨r3, h3, hd3, -⟩ := released_of_unlock id hid _ d hd2'
    exact ⟨r3, _, by simp only [Runtime.DefineFunction, h1, h3]; rfl, hd3⟩

theorem quietRun_keeps_depth (id : Int) (d : Nat) (status : JSBool) (rval : jsval) :
    ∀ r1, LockDepth id r1 d →
      ∃ r2 st rv, quietRun status rval r1 = .ok (r2, st, rv) ∧ LockDepth id r2 d :=
  fun r1 h => ⟨r1, status, rval, rfl, h⟩

theorem nestedRun_keeps_depth (id : Int) (hid : 0 < id) (d : Nat) (inner : String)
    (innerRval rval : jsval) :
    ∀ r1, LockDepth id r1 d →
      ∃ r2 st rv, nestedRun id inner innerRval rval r1 = .ok (r2, st, rv) ∧ LockDepth id r2 d := by
  intro r1 h
  obtain ⟨r3, ret, h3, hd3, -⟩ := Eval_at_depth id hid r1 d h inner
    (quietRun JSBool.JS_TRUE innerRval) (quietRun_keeps_depth id (d + 1) JSBool.JS_TRUE innerRval)
  exact ⟨r3, JSBool.JS_TRUE, rval, by simp only [nestedRun, h3], hd3⟩

/-- C3: for a goroutine with a positive id that enters `Eval`, `Compile`,
`DefineFunction` or `Script.Execute` at depth `d` (0: the mutex is free and it
does not own the lock; `d > 0`: it holds the lock at depth `d`), and for every
status the engine call yields, provided the engine call itself returns with
the lock as it was handed over: the operation returns, and its deferred
`unlock()` has run, so that at `d = 0` the mutex is free again and any
goroutine can take the lock next, and at `d > 0` the goroutine still holds the
lock at depth `d`. -/
theorem operations_release_lock_on_every_path (id : Int) (hid : 0 < id) (r : Runtime) (d : Nat)
    (hd : LockDepth id r d) (run : EngineRun)
    (hrun : ∀ r1, LockDepth id r1 (d + 1) →
      ∃ r2 status rval, run r1 = .ok (r2, status, rval) ∧ LockDepth id r2 (d + 1))
    (script filename name : String) (lineno : Int) (scriptObj fn : Option JSObject)
    (callback : JsFunc) (s : Script) :
    (∃ r3 ret, r.Eval id script run = .ok (r3, ret) ∧ Released id d r3) ∧
    (∃ r3 ret, r.Compile id script filename lineno scriptObj = .ok (r3, ret) ∧
      Released id d r3) ∧
    (∃ r3 ret, r.DefineFunction id name callback fn = .ok (r3, ret) ∧ Released id d r3) ∧
    (∃ r3 ret, s.Execute r id run = .ok (r3, ret) ∧ Released id d r3) :=
  ⟨Eval_at_depth id hid r d hd script run hrun,
   Compile_at_depth id hid r d hd script filename lineno scriptObj,
   DefineFunction_at_depth id hid r d hd name callback fn,
   Execute_at_depth id hid r d hd s run hrun⟩

theorem sampleRuntime_depth (id : Int) (hid : 0 < id) : LockDepth id sampleRuntime 0 :=
  ⟨rfl, by show (-1 : Int) ≠ id; omega, rfl⟩

/-- C3 at goroutine 1 on the sample runtime, depth 0, where the script
evaluated calls back into the host and the callback evaluates "2+2" on the
same runtime before the outer engine call returns. -/
theorem operations_release_lock_on_every_path_witness :
    (∃ r3 ret, sampleRuntime.Eval 1 "addOne(41)" (nestedRun 1 "2+2" (jsval.int 4) (jsval.int 42))
        = .ok (r3, ret) ∧ Released 1 0 r3) ∧
    (∃ r3 ret, sampleRuntime.Compile 1 "addOne(41)" "main.js" 1 none = .ok (r3, ret) ∧
      Released 1 0 r3) ∧
    (∃ r3 ret, sampleRuntime.DefineFunction 1 "addOne" (fun _ => ({ val := jsval.int 42 }, true))
        none = .ok (r3, ret) ∧ Released 1 0 r3) ∧
    (∃ r3 ret, Script.Execute { scriptObj := 7 } sampleRuntime 1
        (nestedRun 1 "2+2" (jsval.int 4) (jsval.int 42)) = .ok (r3, ret) ∧ Released 1 0 r3) :=
  operations_release_lock_on_every_path 1 (by decide) sampleRuntime 0
    (sampleRuntime_depth 1 (by decide)) (nestedRun 1 "2+2" (jsval.int 4) (jsval.int 42))
    (nestedRun_keeps_depth 1 (by decide) 1 "2+2" (jsval.int 4) (jsval.int 42))
    "addOne(41)" "main.js" "addOne" 1 none none (fun _ => ({ val := jsval.int 42 }, true))
    { scriptObj := 7 }

/-! ### C4, C7, C8, C9: evaluations of `monkey.go` at the failing inputs -/

/-- C4 (failing input): `Value.Call` of `monkey.go` on the sample runtime,
whose lock nobody holds: the operation enters the engine through
`C.JS_CallFunctionValue` with the mutex unlocked and makes no call on the
mutex at all. -/
theorem Value_Call_enters_engine_without_lock :
    ∃ r1 ret, Value.Call { val := jsval.function 64 } sampleRuntime [{ val := jsval.int 41 }]
        (quietRun JSBool.JS_TRUE (jsval.int 42)) = .ok (r1, ret) ∧
      r1.log = sampleRuntime.log ++ [Event.jsapi Api.JS_CallFunctionValue (-1) false] ∧
      r1.mutex.locked = false :=
  ⟨_, _, rfl, rfl, rfl⟩

/-- C7 (failing input): a successful `Eval`, `Script.Execute` and `Value.Call`
of `monkey.go` on the sample runtime, each yielding the heap object at address
4096: the handle is returned while the engine's root set is still empty, and
the operation has made no call that adds a root. -/
theorem Eval_Execute_Call_return_unrooted :
    (∃ r1, sampleRuntime.Eval 1 "({})" (quietRun JSBool.JS_TRUE (jsval.object 4096))
        = .ok (r1, { val := jsval.object 4096 }, true) ∧ r1.cx.roots = [] ∧
      r1.log = sampleRuntime.log ++
        [Event.mutexLock, Event.jsapi Api.JS_EvaluateScript 1 true, Event.mutexUnlock]) ∧
    (∃ r1, Script.Execute { scriptObj := 7 } sampleRuntime 1
        (quietRun JSBool.JS_TRUE (jsval.object 4096))
        = .ok (r1, { val := jsval.object 4096 }, true) ∧ r1.cx.roots = [] ∧
      r1.log = sampleRuntime.log ++
        [Event.mutexLock, Event.jsapi Api.JS_ExecuteScript 1 true, Event.mutexUnlock]) ∧
    (∃ r1, Value.Call { val := jsval.function 64 } sampleRuntime []
        (quietRun JSBool.JS_TRUE (jsval.object 4096))
        = .ok (r1, { val := jsval.object 4096 }, true) ∧ r1.cx.roots = [] ∧
      r1.log = sampleRuntime.log ++ [Event.jsapi Api.JS_CallFunctionValue (-1) false]) :=
  ⟨⟨_, rfl, rfl, rfl⟩, ⟨_, rfl, rfl, rfl⟩, ⟨_, rfl, rfl, rfl⟩⟩

/-- C8 (failing input): the finalizer of the handle `newObject` of `monkey.go`
creates for the object at address 4096 on the sample runtime: it calls the
engine API (`C.JS_RemoveObjectRoot`) directly, with the mutex unlocked, and
changes the engine's root set at that moment. -/
theorem newObject_finalizer_calls_engine :
    (newObject sampleRuntime 4096).1.cx.roots = [Root.object 4096] ∧
    (newObject.finalizer (newObject sampleRuntime 4096).1 (newObject sampleRuntime 4096).2).cx.roots
      = [] ∧
    (newObject.finalizer (newObject sampleRuntime 4096).1 (newObject sampleRuntime 4096).2).log
      = (newObject sampleRuntime 4096).1.log ++ [Event.jsapi Api.JS_RemoveObjectRoot (-1) false] :=
  ⟨rfl, by decide, rfl⟩

/-- C9 (failing input): `call_error_func` with reporter 7 set and the sample
report, whose flags are 2: the reporter is called once, with the message, file
name, line text, line number, error number and token offset of the report, but
with `Flags` 0. -/
theorem call_error_func_drops_flags :
    (call_error_func (sampleRuntime.SetErrorReporter (some 7))
        { addr := 1000, text := "ReferenceError: nonexistentFn is not defined" } sampleReport).log
      = sampleRuntime.log ++ [Event.errorReporter 7
          { Message := "ReferenceError: nonexistentFn is not defined"
            FileName := "main.js"
            LineBuf := "var x = nonexistentFn()"
            LineNum := 3
            ErrorNum := 1
            TokenIndex := 8
            Flags := 0 }] ∧
    sampleReport.flags = 2 :=
  ⟨by decide, rfl⟩

/-! ### C5 -/

/-- C5: for a registered name and any argument count, `call_go_func` returns
`JS_TRUE` exactly when the host callback, called with the frame's arguments,
returns `ok = true`; then the return slot holds the callback's result value
(and the arguments are untouched); when the callback returns `ok = false` the
trampoline returns `JS_FALSE` and the frame is as it was. -/
theorem call_go_func_status_and_return_slot (r : Runtime) (name : String) (argc : Nat)
    (vp : Vp) (f : JsFunc) (hreg : r.callbacks name = some f) :
    ∃ vp1 status, call_go_func r name argc vp = some (vp1, status) ∧
      (status = JSBool.JS_TRUE ↔ (f (call_go_func.argv argc vp)).2 = true) ∧
      ((f (call_go_func.argv argc vp)).2 = true →
        vp1.rval = (f (call_go_func.argv argc vp)).1.val ∧ vp1.argv = vp.argv) ∧
      ((f (call_go_func.argv argc vp)).2 = false → status = JSBool.JS_FALSE ∧ vp1 = vp) := by
  have hcall : call_go_func r name argc vp =
      (if (f (call_go_func.argv argc vp)).2 = true then
        some (_JS_SET_RVAL vp (f (call_go_func.argv argc vp)).1.val, JSBool.JS_TRUE)
       else some (vp, JSBool.JS_FALSE)) := by
    simp only [call_go_func, hreg]
  cases hok : (f (call_go_func.argv argc vp)).2 with
  | true =>
    refine ⟨_JS_SET_RVAL vp (f (call_go_func.argv argc vp)).1.val, JSBool.JS_TRUE, ?_, ?_, ?_, ?_⟩
    · rw [hcall, hok]; rfl
    · simp
    · exact fun _ => ⟨rfl, rfl⟩
    · simp
  | false =>
    refine ⟨vp, JSBool.JS_FALSE, ?_, ?_, ?_, ?_⟩
    · rw [hcall, hok]; rfl
    · simp
    · simp
    · exact fun _ => ⟨rfl, rfl⟩

/-- C5 at the sample runtime with `addOne` registered, called with the single
argument 41. -/
theorem call_go_func_status_and_return_slot_witness :
    ∃ vp1 status, call_go_func (sampleRuntime.afterDefineFunction 1 "addOne" addOne (some 5))
        "addOne" 1 (Vp.single (jsval.int 41)) = some (vp1, status) ∧
      (status = JSBool.JS_TRUE ↔
        (addOne (call_go_func.argv 1 (Vp.single (jsval.int 41)))).2 = true) ∧
      ((addOne (call_go_func.argv 1 (Vp.single (jsval.int 41)))).2 = true →
        vp1.rval = (addOne (call_go_func.argv 1 (Vp.single (jsval.int 41)))).1.val ∧
        vp1.argv = (Vp.single (jsval.int 41)).argv) ∧
      ((addOne (call_go_func.argv 1 (Vp.single (jsval.int 41)))).2 = false →
        status = JSBool.JS_FALSE ∧ vp1 = Vp.single (jsval.int 41)) :=
  call_go_func_status_and_return_slot (sampleRuntime.afterDefineFunction 1 "addOne" addOne (some 5))
    "addOne" 1 (Vp.single (jsval.int 41)) addOne (by simp [Runtime.afterDefineFunction, Runtime.DefineFunction, sampleRuntime, NewRuntime, Runtime.lock, Runtime.unlock, Runtime.enter, Runtime.new, Mutex.Lock, Mutex.Unlock])

/-! ### C6 -/

theorem lock_callbacks (r r1 : Runtime) (id : Int) (h : r.lock id = .ok r1) :
    r1.callbacks = r.callbacks := by
  unfold Runtime.lock at h
  by_cases hb : r.lockBy ≠ id
  · rw [if_pos hb] at h
    cases hm : r.mutex.locked with
    | true => simp [Mutex.Lock, hm] at h
    | false =>
      simp only [Mutex.Lock, hm] at h
      cases h; rfl
  · rw [if_neg hb] at h
    cases h; rfl

theorem unlock_callbacks (r r1 : Runtime) (h : r.unlock = .ok r1) :
    r1.callbacks = r.callbacks := by
  unfold Runtime.unlock at h
  by_cases hl : r.lockLevel - 1 < 0
  · simp only [hl, if_true] at h
    cases hm : r.mutex.locked with
    | true =>
      simp only [Mutex.Unlock, hm] at h
      cases h; rfl
    | false => simp [Mutex.Unlock, hm] at h
  · simp only [hl, if_false] at h
    cases h; rfl

theorem DefineFunction_callbacks (r r1 : Runtime) (id : Int) (name : String) (callback : JsFunc)
    (fn : Option JSObject) (h : r.DefineFunction id name callback fn = .ok (r1, true)) :
    r1.callbacks = fun k => if k = name then some callback else r.callbacks k := by
  unfold Runtime.DefineFunction at h
  cases hl : r.lock id with
  | error e => rw [hl] at h; cases h
  | ok r2 =>
    rw [hl] at h
    have hcb := lock_callbacks r r2 id hl
    cases fn with
    | none =>
      simp only at h
      split at h <;> cases h
    | some o =>
      simp only at h
      split at h
      · cases h
      · rename_i r4 hu
        cases h
        rw [unlock_callbacks _ _ hu]
        funext k
        simp only [Runtime.enter, hcb]

/-- C6: after `DefineFunction(n, f)` and then `DefineFunction(n, g)` have both
returned true, the map holds `g` under `n`, a trampoline call for `n` returns
what `g` returns (status and return slot), and for every other name the map
entry, and with it the trampoline's behaviour, is what it was before the second
registration. -/
theorem DefineFunction_twice_overwrites (r r1 r2 : Runtime) (id : Int) (n : String)
    (f g : JsFunc) (fn1 fn2 : Option JSObject)
    (h1 : r.DefineFunction id n f fn1 = .ok (r1, true))
    (h2 : r1.DefineFunction id n g fn2 = .ok (r2, true)) :
    r1.callbacks n = some f ∧ r2.callbacks n = some g ∧
    (∀ argc vp, call_go_func r2 n argc vp =
      some (if (g (call_go_func.argv argc vp)).2 = true
            then (_JS_SET_RVAL vp (g (call_go_func.argv argc vp)).1.val, JSBool.JS_TRUE)
            else (vp, JSBool.JS_FALSE))) ∧
    (∀ m, m ≠ n → r2.callbacks m = r1.callbacks m) ∧
    (∀ m, m ≠ n → ∀ argc vp, call_go_func r2 m argc vp = call_go_func r1 m argc vp) := by
  have e1 := DefineFunction_callbacks r r1 id n f fn1 h1
  have e2 := DefineFunction_callbacks r1 r2 id n g fn2 h2
  have hn : r2.callbacks n = some g := by rw [e2]; simp
  have hm : ∀ m, m ≠ n → r2.callbacks m = r1.callbacks m := by
    intro m hne; rw [e2]; simp [hne]
  refine ⟨by rw [e1]; simp, hn, ?_, hm, ?_⟩
  · intro argc vp
    simp only [call_go_func, hn]
    split <;> rfl
  · intro m hne argc vp
    simp only [call_go_func, hm m hne]

/-- C6 on the sample runtime: "addOne" is registered with `addOne` and then
with `addTwo`. -/
theorem DefineFunction_twice_overwrites_witness :
    call_go_func ((sampleRuntime.afterDefineFunction 1 "addOne" addOne (some 5)).afterDefineFunction
        1 "addOne" addTwo (some 6)) "addOne" 1 (Vp.single (jsval.int 41)) =
      some (if (addTwo (call_go_func.argv 1 (Vp.single (jsval.int 41)))).2 = true
            then (_JS_SET_RVAL (Vp.single (jsval.int 41))
                    (addTwo (call_go_func.argv 1 (Vp.single (jsval.int 41)))).1.val,
                  JSBool.JS_TRUE)
            else (Vp.single (jsval.int 41), JSBool.JS_FALSE)) :=
  (DefineFunction_twice_overwrites sampleRuntime
    (sampleRuntime.afterDefineFunction 1 "addOne" addOne (some 5))
    ((sampleRuntime.afterDefineFunction 1 "addOne" addOne (some 5)).afterDefineFunction
        1 "addOne" addTwo (some 6))
    1 "addOne" addOne addTwo (some 5) (some 6) rfl rfl).2.2.1 1 (Vp.single (jsval.int 41))

/-! ### What does hold of the operations, the error hook and the handles -/

theorem unlock_after_enter_log (id : Int) (hid : 0 < id) (r : Runtime) (d : Nat) (fn : Api)
    (hd : LockDepth id r d) :
    ∃ r1 r3, r.lock id = .ok r1 ∧ (r1.enter fn).unlock = .ok r3 ∧
      r1.callbacks = r.callbacks ∧
      r3.log = r.log ++ (if d = 0 then [Event.mutexLock] else []) ++
        [Event.jsapi fn id true] ++ (if d = 0 then [Event.mutexUnlock] else []) := by
  obtain ⟨r1, h1, hd1, hlog1, -, hcb, -⟩ := lock_at_depth id r d hd
  obtain ⟨r3, h3, -, hlog3, -⟩ :=
    unlock_at_depth id hid _ d (LockDepth_enter id r1 _ fn hd1)
  refine ⟨r1, r3, h1, h3, hcb, ?_⟩
  rw [hlog3]
  simp only [Runtime.enter, hlog1, hd1.1, hd1.2.1]
  by_cases hz : d = 0 <;> simp [hz]

/-- Entered by a goroutine with a positive id at depth `d`, each of `Eval`,
`Compile`, `DefineFunction` and `Script.Execute` calls into the engine with the
mutex locked and `lockBy` equal to the caller: with an engine run that calls
no host callback, what the operation adds to the call log is the engine call,
marked locked and owned by the caller, bracketed at depth 0 by `mutex.Lock()`
and `mutex.Unlock()`. -/
theorem scoped_operations_enter_engine_locked (id : Int) (hid : 0 < id) (r : Runtime) (d : Nat)
    (hd : LockDepth id r d) (status : JSBool) (rval : jsval)
    (script filename name : String) (lineno : Int) (scriptObj fn : Option JSObject)
    (callback : JsFunc) (s : Script) :
    (∃ r3 ret, r.Eval id script (quietRun status rval) = .ok (r3, ret) ∧
      r3.log = r.log ++ (if d = 0 then [Event.mutexLock] else []) ++
        [Event.jsapi Api.JS_EvaluateScript id true] ++
        (if d = 0 then [Event.mutexUnlock] else [])) ∧
    (∃ r3 ret, r.Compile id script filename lineno scriptObj = .ok (r3, ret) ∧
      r3.log = r.log ++ (if d = 0 then [Event.mutexLock] else []) ++
        [Event.jsapi Api.JS_CompileScript id true] ++
        (if d = 0 then [Event.mutexUnlock] else [])) ∧
    (∃ r3 ret, r.DefineFunction id name callback fn = .ok (r3, ret) ∧
      r3.log = r.log ++ (if d = 0 then [Event.mutexLock] else []) ++
        [Event.jsapi Api.JS_DefineFunction id true] ++
        (if d = 0 then [Event.mutexUnlock] else [])) ∧
    (∃ r3 ret, s.Execute r id (quietRun status rval) = .ok (r3, ret) ∧
      r3.log = r.log ++ (if d = 0 then [Event.mutexLock] else []) ++
        [Event.jsapi Api.JS_ExecuteScript id true] ++
        (if d = 0 then [Event.mutexUnlock] else [])) := by
  refine ⟨?_, ?_, ?_, ?_⟩
  · obtain ⟨r1, r3, h1, h3, -, hlog⟩ :=
      unlock_after_enter_log id hid r d Api.JS_EvaluateScript hd
    exact ⟨r3, _, by simp only [Runtime.Eval, h1, quietRun, h3]; rfl, hlog⟩
  · obtain ⟨r1, r3, h1, h3, -, hlog⟩ :=
      unlock_after_enter_log id hid r d Api.JS_CompileScript hd
    exact ⟨r3, _, by simp only [Runtime.Compile, h1, h3]; rfl, hlog⟩
  · obtain ⟨r1, h1, hd1, hlog1, -, hcb, -⟩ := lock_at_depth id r d hd
    have hd2 := LockDepth_enter id r1 _ Api.JS_DefineFunction hd1
    have hfin : ∀ r2 : Runtime, LockDepth id r2 (d + 1) →
        r2.log = r1.log ++ [Event.jsapi Api.JS_DefineFunction id true] →
        ∃ r3, r2.unlock = .ok r3 ∧
          r3.log = r.log ++ (if d = 0 then [Event.mutexLock] else []) ++
            [Event.jsapi Api.JS_DefineFunction id true] ++
            (if d = 0 then [Event.mutexUnlock] else []) := by
      intro r2 hr2 hl2
      obtain ⟨r3, h3, -, hlog3, -⟩ := unlock_at_depth id hid r2 d hr2
      refine ⟨r3, h3, ?_⟩
      rw [hlog3, hl2, hlog1]
      by_cases hz : d = 0 <;> simp [hz]
    have hl2 : (r1.enter Api.JS_DefineFunction).log =
        r1.log ++ [Event.jsapi Api.JS_DefineFunction id true] := by
      simp only [Runtime.enter, hd1.1, hd1.2.1]
    cases fn with
    | none =>
      obtain ⟨r3, h3, hlog⟩ := hfin _ hd2 hl2
      exact ⟨r3, _, by simp only [Runtime.DefineFunction, h1, h3]; rfl, hlog⟩
    | some f =>
      obtain ⟨r3, h3, hlog⟩ := hfin
        { r1.enter Api.JS_DefineFunction with
          callbacks := fun k => if k = name then some callback
                                else (r1.enter Api.JS_DefineFunction).callbacks k } hd2 hl2
      exact ⟨r3, _, by simp only [Runtime.DefineFunction, h1, h3]; rfl, hlog⟩
  · obtain ⟨r1, r3, h1, h3, -, hlog⟩ :=
      unlock_after_enter_log id hid r d Api.JS_ExecuteScript hd
    exact ⟨r3, _, by simp only [Script.Execute, h1, quietRun, h3]; rfl, hlog⟩

/-- The operations at goroutine 1 on the sample runtime, depth 0. -/
theorem scoped_operations_enter_engine_locked_witness :
    ∃ r3 ret, sampleRuntime.Eval 1 "1+1" (quietRun JSBool.JS_TRUE (jsval.int 2)) = .ok (r3, ret) ∧
      r3.log = sampleRuntime.log ++ (if 0 = 0 then [Event.mutexLock] else []) ++
        [Event.jsapi Api.JS_EvaluateScript 1 true] ++
        (if 0 = 0 then [Event.mutexUnlock] else []) :=
  (scoped_operations_enter_engine_locked 1 (by decide) sampleRuntime 0
    (sampleRuntime_depth 1 (by decide)) JSBool.JS_TRUE (jsval.int 2) "1+1" "main.js" "addOne" 1
    none none addOne { scriptObj := 7 }).1

theorem uintptr_offset (t b : Nat) (hbt : b ≤ t) (ht : t < 2 ^ 64) (hoff : t - b < 2 ^ 63) :
    uintptrToInt (uintptrSub t b) = ((t - b : Nat) : Int) := by
  have hb : b < 2 ^ 64 := lt_of_le_of_lt hbt ht
  have h1 : uintptrSub t b = t - b := by
    unfold uintptrSub
    rw [Nat.mod_eq_of_lt ht, Nat.mod_eq_of_lt hb]
    have : t + 2 ^ 64 - b = (t - b) + 2 ^ 64 := by omega
    rw [this, Nat.add_mod_right, Nat.mod_eq_of_lt (by omega)]
  rw [h1]
  unfold uintptrToInt
  have h2 : (t - b) % 2 ^ 64 = t - b := Nat.mod_eq_of_lt (by omega)
  rw [h2, if_pos hoff]

/-- Apart from `Flags`, `call_error_func` hands the report on faithfully: with a
reporter set, it is called exactly once, with the message, file name, line
text, line number and error number of the engine's report, and, when the token
pointer lies in the line buffer, with the offset of the token as `TokenIndex`;
`Flags` is always 0.  With no reporter set nothing is called. -/
theorem call_error_func_reports_once (r : Runtime) (message : CString) (report : JSErrorReport) :
    (∀ f, r.errorReporter = some f →
      ∃ rep, (call_error_func r message report).log = r.log ++ [Event.errorReporter f rep] ∧
        rep.Message = message.text ∧ rep.FileName = report.filename.text ∧
        rep.LineBuf = report.linebuf.text ∧ rep.LineNum = report.lineno ∧
        rep.ErrorNum = report.errorNumber ∧ rep.Flags = 0 ∧
        (report.linebuf.addr ≤ report.tokenptr → report.tokenptr < 2 ^ 64 →
          report.tokenptr - report.linebuf.addr < 2 ^ 63 →
          rep.TokenIndex = ((report.tokenptr - report.linebuf.addr : Nat) : Int))) ∧
    (r.errorReporter = none → call_error_func r message report = r) := by
  constructor
  · intro f hf
    refine ⟨{ Message := message.text
              FileName := report.filename.text
              LineNum := (report.lineno : Int)
              ErrorNum := (report.errorNumber : Int)
              LineBuf := report.linebuf.text
              TokenIndex := uintptrToInt (uintptrSub report.tokenptr report.linebuf.addr)
              Flags := 0 }, by simp only [call_error_func, hf], rfl, rfl, rfl, rfl, rfl, rfl, ?_⟩
    intro h1 h2 h3
    exact uintptr_offset _ _ h1 h2 h3
  · intro hn
    simp only [call_error_func, hn]

/-- The sample report handed to reporter 7. -/
theorem call_error_func_reports_once_witness :
    ∃ rep, (call_error_func (sampleRuntime.SetErrorReporter (some 7))
        { addr := 1000, text := "ReferenceError" } sampleReport).log =
        (sampleRuntime.SetErrorReporter (some 7)).log ++ [Event.errorReporter 7 rep] ∧
      rep.Message = "ReferenceError" ∧ rep.FileName = sampleReport.filename.text ∧
      rep.LineBuf = sampleReport.linebuf.text ∧ rep.LineNum = sampleReport.lineno ∧
      rep.ErrorNum = sampleReport.errorNumber ∧ rep.Flags = 0 ∧
      (sampleReport.linebuf.addr ≤ sampleReport.tokenptr → sampleReport.tokenptr < 2 ^ 64 →
        sampleReport.tokenptr - sampleReport.linebuf.addr < 2 ^ 63 →
        rep.TokenIndex = ((sampleReport.tokenptr - sampleReport.linebuf.addr : Nat) : Int)) :=
  (call_error_func_reports_once (sampleRuntime.SetErrorReporter (some 7))
    { addr := 1000, text := "ReferenceError" } sampleReport).1 7 rfl

/-- In `monkey.go`, `newObject` puts the object into the engine's root set
before it returns the handle. -/
theorem newObject_roots (rt : Runtime) (obj : JSObject) :
    (newObject rt obj).2.obj = obj ∧
    (newObject rt obj).1.cx.roots = Root.object obj :: rt.cx.roots ∧
    (newObject rt obj).1.log = rt.log ++ [Event.jsapi Api.JS_AddObjectRoot rt.lockBy rt.mutex.locked] :=
  ⟨rfl, rfl, rfl⟩

end gomonkey

namespace monkey

open jsapi

/-! ### C10 -/

theorem IsObject_of_IsArray (E : Engine) (v : Value) (h : v.IsArray E = true) :
    v.IsObject E = true := by
  unfold Value.IsArray at h
  simp only [Bool.and_eq_true] at h
  exact h.1

theorem ToGo_succ (E : Engine) (fuel : Nat) (v : Value) :
    v.ToGo E (fuel + 1) =
      (if v.IsBoolean E then .ok (.bool (v.ToBoolean E).1)
       else if v.IsInt E then .ok (.int32 (v.ToInt E).1)
       else if v.IsNumber E then .ok (.float64 (v.ToNumber E).1)
       else if v.IsString E then .ok (.string (v.String E))
       else if v.IsObject E then .ok (.objectToGo (v.ToObject E))
       else if v.IsNull E then .ok .nil
       else .error (.panic "unsupported js type")) := by
  rw [Value.ToGo]
  by_cases hb : v.IsBoolean E = true
  · simp [hb]
  by_cases hi : v.IsInt E = true
  · simp [hb, hi]
  by_cases hn : v.IsNumber E = true
  · simp [hb, hi, hn]
  by_cases hs : v.IsString E = true
  · simp [hb, hi, hn, hs]
  by_cases ho : v.IsObject E = true
  · simp [hb, hi, hn, hs, ho]
  have ha : ¬ v.IsArray E = true := fun h => ho (IsObject_of_IsArray E v h)
  simp [hb, hi, hn, hs, ho, ha]

/-- C10: for every value `v` and whatever the engine answers, `IsArray()`
implies `IsObject()`; `ToGo` never returns a `[]interface{}` and never recurses
(any positive recursion bound gives the result of bound 1), that is, its array
arm is never taken; and a JavaScript array (`IsArray()` answers true, none of
the boolean, int, number and string tests does) is converted through
`ToObject().ToGo()`. -/
theorem ToGo_array_arm_unreachable (E : Engine) (v : Value) :
    (v.IsArray E = true → v.IsObject E = true) ∧
    (∀ fuel xs, v.ToGo E fuel ≠ .ok (GoValue.slice xs)) ∧
    (∀ fuel, v.ToGo E (fuel + 1) = v.ToGo E 1) ∧
    (v.IsArray E = true → v.IsBoolean E = false → v.IsInt E = false →
      v.IsNumber E = false → v.IsString E = false →
      ∀ fuel, v.ToGo E (fuel + 1) = .ok (GoValue.objectToGo (v.ToObject E))) := by
  refine ⟨IsObject_of_IsArray E v, ?_, ?_, ?_⟩
  · intro fuel xs
    cases fuel with
    | zero => simp [Value.ToGo]
    | succ n =>
      rw [ToGo_succ]
      split_ifs <;> simp
  · intro fuel
    rw [ToGo_succ, ToGo_succ]
  · intro ha hb hi hn hs fuel
    rw [ToGo_succ]
    simp [hb, hi, hn, hs, IsObject_of_IsArray E v ha]

/-- C10 at the sample engine and its one array, the object at address 16. -/
theorem ToGo_array_arm_unreachable_witness :
    ∀ fuel, Value.ToGo sampleEngine (fuel + 1) { val := jsval.object 16 } =
      .ok (GoValue.objectToGo (Value.ToObject sampleEngine { val := jsval.object 16 })) :=
  (ToGo_array_arm_unreachable sampleEngine { val := jsval.object 16 }).2.2.2
    (by decide) (by decide) (by decide) (by decide) (by decide)

/-- In `js_value.go`, `newValue` puts the value into the engine's root set
before it returns the handle, and the finalizer of the handle calls nothing in
the engine: it leaves the root set as it is and appends the handle to the
disposal queue. -/
theorem newValue_roots_and_finalizer_enqueues (cx : Context) (val : jsval) (v : Value) :
    (newValue cx val).2.val = val ∧
    (newValue cx val).1.jscx.roots = Root.value val :: cx.jscx.roots ∧
    (newValue.finalizer cx v).jscx = cx.jscx ∧
    (newValue.finalizer cx v).calls = cx.calls ∧
    (newValue.finalizer cx v).rt.valDisposeChan = cx.rt.valDisposeChan ++ [v] :=
  ⟨rfl, rfl, rfl, rfl, rfl⟩

end monkey
